import Mathlib

/-!
# Verification of the dolma_pipeline batch-processing pipeline

Shallow embedding of the repository's Python sources:
  * `setup_pipeline.py`  — manifest construction from inclusion filters;
  * `process_pipeline.py` — the batch loop: ledger load, batch planning,
    download-with-retry, XML-corruption classification, per-file extraction
    with a corruption retry loop, merge, upload, ledger append, scratch purge;
  * `process_batch_duckdb.py` — the DuckDB batch variant of row extraction.

External effects (subprocess exit codes, downloaded bytes, the tldextract
library, upload success) are modelled as explicit parameters; the control
flow and data transformations are translated statement-by-statement from
the source.
-/

namespace DolmaPipeline

/-! ## String helpers

Python's `pat in s` substring test, modelled on the character list of the
string.  `List.isPrefixOf` is the standard prefix test. -/

/-- `infixOf pat hay = true` iff `pat` occurs as a contiguous sublist of `hay`.
Models Python's `pat in hay` for strings. -/
def infixOf (pat : List Char) : List Char → Bool
  | [] => pat.isEmpty
  | c :: t => pat.isPrefixOf (c :: t) || infixOf pat t

/-- Python `pat in hay` on strings. -/
def strContains (hay pat : String) : Bool :=
  infixOf pat.data hay.data

/-- Python `s.lower()` (ASCII case mapping, which is all the corruption
vocabulary needs). -/
def lowerStr (s : String) : String :=
  String.mk (s.data.map Char.toLower)

/-- Python `s.strip()`: remove leading and trailing whitespace. -/
def pyStrip (s : String) : String :=
  String.mk
    (((s.data.dropWhile Char.isWhitespace).reverse.dropWhile
      Char.isWhitespace).reverse)

/-- Python `s.startswith(pre)`. -/
def startsWithStr (s pre : String) : Bool :=
  pre.data.isPrefixOf s.data

/-- UTF-8 bytes of a code point (Python `str.encode()` per character). -/
def utf8Bytes (c : Nat) : List Nat :=
  if c < 128 then [c]
  else if c < 2048 then [192 + c / 64, 128 + c % 64]
  else if c < 65536 then
    [224 + c / 4096, 128 + c / 64 % 64, 128 + c % 64]
  else
    [240 + c / 262144, 128 + c / 4096 % 64, 128 + c / 64 % 64, 128 + c % 64]

/-! ## `setup_pipeline.py` — manifest construction (lines 24–31)

```python
url_list_filtered = []
for filter in variant.inclusion_filters:
    url_list_filtered.extend([url for url in url_list if filter in url])
```

The variant's `exclusion_filters` field (declared in `models.py`) is never
read by this loop; we pass it as an argument to state that fact. -/

/-- The setup step's manifest build: for each inclusion filter, in
configuration order, append every fetched URL containing the filter.
`exclusionFilters` is taken as an argument only to express that the loop
ignores it. -/
def build_manifest (inclusionFilters : List String)
    (_exclusionFilters : Option (List String)) (urlList : List String) :
    List String :=
  inclusionFilters.flatMap (fun f => urlList.filter (fun u => strContains u f))

/-! ## `process_pipeline.py` — ledger load (main, lines 259–263)

```python
with open(f"completed/{pattern_local}", "r") as f:
    completed = f.readlines()
completed_set = {url.strip() for url in completed}
```

`open` raises `FileNotFoundError` when the file is missing; there is no
existence check and no parse step.  The file contents are modelled as
`Option (List String)` (`none` = file absent). -/

inductive LedgerError where
  | fileNotFound
  deriving DecidableEq, Repr

/-- Ledger load as written in `main`: a plain `open` + `readlines` + strip.
A missing store raises (`FileNotFoundError`); an existing store always
loads (its lines stripped), with no parse-failure mode. -/
def load_completed (store : Option (List String)) :
    Except LedgerError (List String) :=
  match store with
  | none => .error .fileNotFound
  | some lines => .ok (lines.map pyStrip)

/-! ## `process_pipeline.py` — batch planner

```python
def batch_urls(url_list, batch_size=100):
    for i in range(0, len(url_list), batch_size):
        yield url_list[i : i + batch_size]
```

together with the pending filter in `main` (line 267):

```python
url_list = [url for url in url_list if url not in completed_set]
```
-/

/-- Slicing loop of `batch_urls`, with explicit fuel (the Python loop index
advances by `size`; `fuel = url_list.length` always suffices when
`size ≥ 1`). -/
def batchUrlsAux (size : Nat) : Nat → List α → List (List α)
  | 0, _ => []
  | _, [] => []
  | fuel + 1, x :: xs =>
      (x :: xs).take size :: batchUrlsAux size fuel ((x :: xs).drop size)

/-- `batch_urls(url_list, batch_size)`: consecutive slices of `batch_size`
elements (last may be shorter). -/
def batch_urls (urlList : List α) (batchSize : Nat) : List (List α) :=
  batchUrlsAux batchSize urlList.length urlList

/-- The pending filter of `main`: keep manifest entries absent from the
completed set, in manifest order. -/
def filter_pending [DecidableEq α] (manifest : List α) (completed : List α) :
    List α :=
  manifest.filter (fun u => ¬ (u ∈ completed))

/-- The batch plan of `main`: filter out completed URLs, then slice. -/
def plan_batches [DecidableEq α] (manifest : List α) (completed : List α)
    (batchSize : Nat) : List (List α) :=
  batch_urls (filter_pending manifest completed) batchSize

/-! ## `process_pipeline.py` — corruption classification of error messages
(`process_url_file_with_retry`, lines 150–160)

```python
is_corruption_error = any(
    phrase in error_msg.lower()
    for phrase in ["parse error", "invalid", "unexpected",
                   "corrupt", "malformed", "numeric literal"])
```
-/

/-- The corruption-phrase vocabulary, in source order. -/
def corruptionPhrases : List String :=
  ["parse error", "invalid", "unexpected", "corrupt", "malformed",
   "numeric literal"]

/-- `is_corruption_error` of `process_url_file_with_retry`: the lowercased
error message contains one of the corruption phrases. -/
def is_corruption_error (errorMsg : String) : Bool :=
  corruptionPhrases.any (fun phrase => strContains (lowerStr errorMsg) phrase)

/-! ## `process_pipeline.py` — the per-file corruption retry loop
(`process_url_file_with_retry`, lines 138–189)

```python
max_retries = 2
for attempt in range(max_retries + 1):
    try:
        return process_url_file((fpath, selector))
    except Exception as e:
        error_msg = str(e)
        is_corruption_error = ...
        if is_corruption_error and attempt < max_retries:
            ...                          # look up mapping, re-download
            if file_path_str in url_mapping:
                if redownload_corrupted_file(...):
                    continue             # retry processing
                else:
                    logger.error(...)    # fall through: loop continues
            else:
                logger.error(...)        # fall through: loop continues
        if attempt == max_retries:
            logger.error(...)
            raise e
```

Note the control flow: the only `raise` is guarded by
`attempt == max_retries`, so on attempts 0 and 1 *every* exception —
corruption-classified or not — falls through to the next loop iteration
(the corruption check only gates the re-download side effect).

Each processing attempt's outcome is a parameter
`attemptOutcome : Nat → Except String Unit` (`error msg` = the attempt
raised with message `msg`); `hasMapping` is whether `str(fpath)` is a key
of `url_mapping`; `redownloadOk k` is whether the re-download attempted
after failed attempt `k` returns `True`.  The result records the value
returned/raised together with how many processing calls and re-download
attempts were made. -/

/-- `max_retries = 2` in `process_url_file_with_retry`. -/
def maxRetries : Nat := 2

structure RetryResult where
  result : Except String Unit
  processCalls : Nat
  redownloads : Nat
  deriving Repr

/-- One pass of the `for attempt in range(max_retries + 1)` loop, from
index `attempt`, with structural fuel (`maxRetries + 1` at the top level). -/
def retryLoopAux (attemptOutcome : Nat → Except String Unit)
    (hasMapping : Bool) (redownloadOk : Nat → Bool) :
    Nat → Nat → RetryResult
  | _, 0 => ⟨.ok (), 0, 0⟩
  | attempt, fuel + 1 =>
    match attemptOutcome attempt with
    | .ok u => ⟨.ok u, 1, 0⟩
    | .error msg =>
        -- re-download side effect, attempted only on a corruption-classified
        -- error before the last attempt and only when the mapping has the file
        let redl : Nat :=
          if is_corruption_error msg ∧ attempt < maxRetries ∧
              hasMapping = true then 1 else 0
        if attempt == maxRetries then
          ⟨.error msg, 1, redl⟩
        else
          let rest := retryLoopAux attemptOutcome hasMapping redownloadOk
            (attempt + 1) fuel
          ⟨rest.result, rest.processCalls + 1, rest.redownloads + redl⟩

/-- `process_url_file_with_retry`, as a function of the per-attempt
outcomes. -/
def process_url_file_with_retry (attemptOutcome : Nat → Except String Unit)
    (hasMapping : Bool) (redownloadOk : Nat → Bool) : RetryResult :=
  retryLoopAux attemptOutcome hasMapping redownloadOk 0 (maxRetries + 1)

/-! ## `process_pipeline.py` — the per-batch body of `main`
(lines 287–469), as an action trace

One iteration of the batch loop performs, in order: write the temporary
URL-list file, save the URL-mapping scratch file, run the batch download
with up to 3 attempts and exponential backoff, unlink the temporary file,
classify and extract files in the worker pool, merge per-file parquet
outputs, upload to the hub, append the batch's URLs to the completed
ledger, and purge scratch.  Exceptions propagate out of the loop body:
only the download failure path has a handler (which unlinks the temporary
URL-list file and re-raises); extraction, merge and upload failures skip
everything after them, including the purge block at lines 455–466. -/

inductive Action where
  | writeTempFile
  | saveMapping
  | downloadAttempt (code : Nat)
  | sleepBackoff (secs : Nat)
  | unlinkTemp
  | extractFile (i : Nat)
  | mergeAttempt
  | uploadAttempt
  | ledgerAppend (urls : List String)
  | purgeDownloadedSources
  | purgeParquetFiles
  | purgeMappingFiles
  | purgeIntermediate
  deriving DecidableEq, Repr

inductive BatchError where
  | downloadFailed
  | extractionFailed (msg : String)
  | mergeFailed
  | uploadFailed
  deriving DecidableEq, Repr

/-- Environment of one batch iteration: the batch's URLs, the exit code of
each aggregate download attempt, the result of each worker-pool file task
(the `RetryResult.result` of `process_url_file_with_retry` on that file),
and whether the merge `COPY` and the hub upload succeed. -/
structure BatchEnv where
  urlBatch : List String
  downloadCode : Nat → Nat
  fileResults : List (Except String Unit)
  mergeOk : Bool
  uploadOk : Bool

/-- `max_download_retries = 3` in `main`. -/
def maxDownloadRetries : Nat := 3

/-- The download retry loop of `main` (lines 316–354): run the batch
download; exit code 0 breaks with success; any nonzero code before the
last attempt sleeps `60 * 2^attempt` seconds and retries; a nonzero code
on the last attempt leaves the loop unsuccessful. -/
def downloadLoopAux (code : Nat → Nat) : Nat → Nat → List Action × Bool
  | _, 0 => ([], false)
  | attempt, fuel + 1 =>
    if code attempt == 0 then ([.downloadAttempt 0], true)
    else if attempt < maxDownloadRetries - 1 then
      let rest := downloadLoopAux code (attempt + 1) fuel
      (.downloadAttempt (code attempt) :: .sleepBackoff (60 * 2 ^ attempt)
        :: rest.1, rest.2)
    else ([.downloadAttempt (code attempt)], false)

/-- The worker pool consuming `process_url_file_with_retry` results
(lines 392–414): `list(tqdm(pool.imap(...)))` re-raises the first task
exception in the parent; tasks are modelled in submission order. -/
def extractionPhase : List (Except String Unit) → Nat →
    List Action × Option String
  | [], _ => ([], none)
  | r :: rs, i =>
    match r with
    | .ok _ =>
        let rest := extractionPhase rs (i + 1)
        (.extractFile i :: rest.1, rest.2)
    | .error msg => ([.extractFile i], some msg)

/-- One iteration of the batch loop of `main`: the sequence of effects it
performs and the exception (if any) that propagates out of it. -/
def runBatch (env : BatchEnv) : List Action × Option BatchError :=
  let pre : List Action := [.writeTempFile, .saveMapping]
  let dl := downloadLoopAux env.downloadCode 0 maxDownloadRetries
  if dl.2 then
    let t1 := pre ++ dl.1 ++ [Action.unlinkTemp]
    let ex := extractionPhase env.fileResults 0
    match ex.2 with
    | some msg => (t1 ++ ex.1, some (.extractionFailed msg))
    | none =>
      let t2 := t1 ++ ex.1 ++ [Action.mergeAttempt]
      if env.mergeOk then
        let t3 := t2 ++ [Action.uploadAttempt]
        if env.uploadOk then
          (t3 ++ [Action.ledgerAppend env.urlBatch,
                  Action.purgeDownloadedSources, Action.purgeParquetFiles,
                  Action.purgeMappingFiles, Action.purgeIntermediate], none)
        else (t3, some .uploadFailed)
      else (t2, some .mergeFailed)
  else
    -- `except subprocess.CalledProcessError` (lines 366–370): print,
    -- unlink the temporary URL-list file, re-raise
    (pre ++ dl.1 ++ [Action.unlinkTemp], some .downloadFailed)

/-! ## `process_pipeline.py` — corruption classifier (`is_xml_file`,
lines 84–103)

```python
try:
    ... command = "zstdcat {file} | head -c 100" or "head -c 100 {file}"
    result = subprocess.run(command, shell=True, capture_output=True, text=True)
    if result.returncode == 0:
        content = result.stdout.strip()
        return (content.startswith("<?xml")
                or "<SelectObjectContentRequest" in content)
except Exception:
    pass
return False
```

The inspection subprocess is modelled by its observable outcome: either it
raised, or it ran and produced a return code and the (≤ 100-byte) content
prefix on stdout. -/

inductive InspectOutcome where
  | raised
  | ran (returncode : Nat) (stdout : String)
  deriving DecidableEq, Repr

/-- `is_xml_file`, as a function of the inspection subprocess's outcome.
Note the `.strip()`: the prefix is whitespace-trimmed before the marker
tests. -/
def is_xml_file (r : InspectOutcome) : Bool :=
  match r with
  | .raised => false
  | .ran returncode stdout =>
    if returncode == 0 then
      let content := pyStrip stdout
      startsWithStr content "<?xml" ||
        strContains content "<SelectObjectContentRequest"
    else false

/-- The spec's wording of the classifier's positive condition, for
comparison: the bounded content prefix starts with `<?xml` or contains
`<SelectObjectContentRequest` (no whitespace trimming mentioned). -/
def specXmlPredicate (prefixContent : String) : Bool :=
  startsWithStr prefixContent "<?xml" ||
    strContains prefixContent "<SelectObjectContentRequest"

/-! The partition of downloaded files in `main` (lines 380–386):

```python
json_files = []
xml_files = []
for file in files:
    if is_xml_file(file):
        xml_files.append(file)
    else:
        json_files.append(file)
```

Only `json_files` is handed to the extraction worker pool. -/

/-- The `json_files` / `xml_files` partition loop of `main`; `inspect f`
is the outcome of the inspection subprocess on file `f`. -/
def classify_files (inspect : α → InspectOutcome) :
    List α → List α × List α
  | [] => ([], [])
  | f :: fs =>
    let rest := classify_files inspect fs
    if is_xml_file (inspect f) then (rest.1, f :: rest.2)
    else (f :: rest.1, rest.2)

/-! ## `process_pipeline.py` — record extractor (`process_url_file`,
lines 191–213) and `extract_domain` (lines 28–36)

```python
def extract_domain(url):
    if url is None:
        return None
    try:
        extracted = tldextract.extract(url)
        return f"{extracted.domain}.{extracted.suffix}"
    except Exception:
        return None
```

`tldextract.extract` is an external library; it is modelled by a parameter
`tld : String → Option (String × String)` returning the `(domain, suffix)`
pair, or `none` when the library raises.

```python
extracted_urls = result.stdout.splitlines()
domains = [extract_domain(url) for url in extracted_urls]
df = pd.DataFrame({"url": extracted_urls, "domain": domains})
df = df.dropna()
df.to_parquet(...)
```

`extracted_urls` are text lines, hence always (possibly empty) strings,
never null; `dropna` drops exactly the rows whose `domain` is `None`. -/

/-- `extract_domain`: `none` input or a library exception maps to `none`;
otherwise the formatted `"domain.suffix"` string. -/
def extract_domain (tld : String → Option (String × String)) :
    Option String → Option String
  | none => none
  | some url =>
    match tld url with
    | none => none
    | some ds => some (ds.1 ++ "." ++ ds.2)

/-- The rows persisted by `process_url_file`: pair each extracted URL line
with its domain, then `dropna` (drop rows whose domain is `None`; the url
column holds strings and is never null). -/
def process_url_file_rows (tld : String → Option (String × String))
    (extractedUrls : List String) : List (String × String) :=
  (extractedUrls.map (fun u => (u, extract_domain tld (some u)))).filterMap
    (fun p => match p.2 with
      | some d => some (p.1, d)
      | none => none)

/-! ## `process_batch_duckdb.py` — the DuckDB batch variant (lines 121–133)

```sql
SELECT url, extract_domain(url) AS domain, source_filename
FROM extracted_urls
WHERE url IS NOT NULL AND url != ''
```

Here the extracted `url` column is nullable (`metadata.url` of the JSON
records), and the `WHERE` clause drops null and empty urls; `domain` is
not filtered. -/

/-- Rows produced by the DuckDB batch query, from the extracted nullable
url column. -/
def duckdb_batch_rows (domainOf : String → Option String)
    (extractedUrls : List (Option String)) :
    List (String × Option String) :=
  extractedUrls.filterMap (fun u? =>
    match u? with
    | none => none
    | some u => if u = "" then none else some (u, domainOf u))

/-! ## `process_pipeline.py` — the batch artifact identifier
(`main`, lines 428–430)

```python
batch_hash = hashlib.md5("_".join(url_batch).encode()).hexdigest()[:8]
batch_num_str = f"batch_{batch_hash}"
```

`hashlib.md5` is the standard MD5 digest (RFC 1321); it is embedded below
over byte lists (`Nat` values < 256), with 32-bit words as `Nat` reduced
mod `2^32`. -/

/-- Truncation to a 32-bit word. -/
def w32 (n : Nat) : Nat := n % 4294967296

/-- Bitwise complement within 32 bits. -/
def bnot32 (x : Nat) : Nat := x ^^^ 4294967295

/-- Left-rotation of a 32-bit word by `s` bits (for `x < 2^32`, `s ≤ 32`). -/
def rotl32 (x s : Nat) : Nat := w32 (x <<< s) ||| (x >>> (32 - s))

/-- MD5 per-round shift amounts. -/
def mdS : List Nat :=
  [7, 12, 17, 22, 7, 12, 17, 22, 7, 12, 17, 22, 7, 12, 17, 22,
   5, 9, 14, 20, 5, 9, 14, 20, 5, 9, 14, 20, 5, 9, 14, 20,
   4, 11, 16, 23, 4, 11, 16, 23, 4, 11, 16, 23, 4, 11, 16, 23,
   6, 10, 15, 21, 6, 10, 15, 21, 6, 10, 15, 21, 6, 10, 15, 21]

/-- MD5 sine-derived round constants. -/
def mdK : List Nat :=
  [0xd76aa478, 0xe8c7b756, 0x242070db, 0xc1bdceee,
   0xf57c0faf, 0x4787c62a, 0xa8304613, 0xfd469501,
   0x698098d8, 0x8b44f7af, 0xffff5bb1, 0x895cd7be,
   0x6b901122, 0xfd987193, 0xa679438e, 0x49b40821,
   0xf61e2562, 0xc040b340, 0x265e5a51, 0xe9b6c7aa,
   0xd62f105d, 0x02441453, 0xd8a1e681, 0xe7d3fbc8,
   0x21e1cde6, 0xc33707d6, 0xf4d50d87, 0x455a14ed,
   0xa9e3e905, 0xfcefa3f8, 0x676f02d9, 0x8d2a4c8a,
   0xfffa3942, 0x8771f681, 0x6d9d6122, 0xfde5380c,
   0xa4beea44, 0x4bdecfa9, 0xf6bb4b60, 0xbebfbc70,
   0x289b7ec6, 0xeaa127fa, 0xd4ef3085, 0x04881d05,
   0xd9d4d039, 0xe6db99e5, 0x1fa27cf8, 0xc4ac5665,
   0xf4292244, 0x432aff97, 0xab9423a7, 0xfc93a039,
   0x655b59c3, 0x8f0ccc92, 0xffeff47d, 0x85845dd1,
   0x6fa87e4f, 0xfe2ce6e0, 0xa3014314, 0x4e0811a1,
   0xf7537e82, 0xbd3af235, 0x2ad7d2bb, 0xeb86d391]

structure MD5State where
  a : Nat
  b : Nat
  c : Nat
  d : Nat
  deriving Repr

/-- MD5 initial chaining values. -/
def md5Init : MD5State :=
  ⟨0x67452301, 0xefcdab89, 0x98badcfe, 0x10325476⟩

/-- Little-endian 32-bit word `j` of a 64-byte chunk. -/
def leWord (chunk : List Nat) (j : Nat) : Nat :=
  chunk.getD (4 * j) 0 + 256 * chunk.getD (4 * j + 1) 0 +
    65536 * chunk.getD (4 * j + 2) 0 + 16777216 * chunk.getD (4 * j + 3) 0

/-- One MD5 round (`i` from 0 to 63) over the current state, with `M` the
chunk's word accessor. -/
def md5Round (M : Nat → Nat) (st : MD5State) (i : Nat) : MD5State :=
  let fg : Nat × Nat :=
    if i < 16 then ((st.b &&& st.c) ||| (bnot32 st.b &&& st.d), i)
    else if i < 32 then
      ((st.d &&& st.b) ||| (bnot32 st.d &&& st.c), (5 * i + 1) % 16)
    else if i < 48 then (st.b ^^^ st.c ^^^ st.d, (3 * i + 5) % 16)
    else (st.c ^^^ (st.b ||| bnot32 st.d), (7 * i) % 16)
  let f := w32 (fg.1 + st.a + mdK.getD i 0 + M fg.2)
  ⟨st.d, w32 (st.b + rotl32 f (mdS.getD i 0)), st.b, st.c⟩

/-- Process one 64-byte chunk: 64 rounds, then add into the chaining
state mod `2^32`. -/
def md5Chunk (st : MD5State) (chunk : List Nat) : MD5State :=
  let r := (List.range 64).foldl (md5Round (leWord chunk)) st
  ⟨w32 (st.a + r.a), w32 (st.b + r.b), w32 (st.c + r.c), w32 (st.d + r.d)⟩

/-- `k` little-endian bytes of `n`. -/
def bytesLE : Nat → Nat → List Nat
  | 0, _ => []
  | k + 1, n => n % 256 :: bytesLE k (n / 256)

/-- MD5 padding: a `0x80` byte, zeros to 56 mod 64, then the bit length
as 8 little-endian bytes. -/
def md5Pad (msg : List Nat) : List Nat :=
  msg ++ [128] ++ List.replicate ((119 - msg.length % 64) % 64) 0 ++
    bytesLE 8 (8 * msg.length)

/-- The 16-byte MD5 digest of a byte list. -/
def md5Bytes (msg : List Nat) : List Nat :=
  let padded := md5Pad msg
  let chunks := batchUrlsAux 64 padded.length padded
  let st := chunks.foldl md5Chunk md5Init
  bytesLE 4 st.a ++ bytesLE 4 st.b ++ bytesLE 4 st.c ++ bytesLE 4 st.d

/-- The lowercase hexadecimal alphabet. -/
def hexDigits : List Char := "0123456789abcdef".data

/-- Hex character of a value < 16. -/
def toHexDigit (n : Nat) : Char := hexDigits.getD n '0'

/-- Two hex characters of a byte, high nibble first. -/
def byteToHex (b : Nat) : List Char := [toHexDigit (b / 16), toHexDigit (b % 16)]

/-- `hexdigest()`: the digest bytes in lowercase hex. -/
def hexOfBytes (bs : List Nat) : List Char := bs.flatMap byteToHex

/-- UTF-8 byte values of a string (Python `str.encode()`). -/
def strBytes (s : String) : List Nat :=
  s.data.flatMap (fun ch => utf8Bytes ch.toNat)

/-- `hashlib.md5("_".join(url_batch).encode()).hexdigest()[:8]` as a
character list. -/
def batch_hash_chars (urlBatch : List String) : List Char :=
  (hexOfBytes (md5Bytes (strBytes (String.intercalate "_" urlBatch)))).take 8

/-- The batch artifact identifier `batch_hash` of `main`. -/
def batch_hash (urlBatch : List String) : String :=
  String.mk (batch_hash_chars urlBatch)

/-! ## Concrete scenarios used to settle the claims -/

/-- Attempt outcomes of a file that fails structural parsing with a
corruption-classified error on the initial attempt and on both retries. -/
def corruptAttempts : Nat → Except String Unit :=
  fun _ => .error "parse error: unexpected character"

/-- The retry-loop result for a persistently corrupt file with a URL
mapping entry and successful re-downloads. -/
def corruptRetryResult : RetryResult :=
  process_url_file_with_retry corruptAttempts true (fun _ => true)

/-- A batch whose download succeeds at once and whose single worker-pool
task is the persistently corrupt file above. -/
def corruptBatchEnv : BatchEnv :=
  { urlBatch := ["u1", "u2"], downloadCode := fun _ => 0,
    fileResults := [corruptRetryResult.result],
    mergeOk := true, uploadOk := true }

/-- Attempt outcomes of a file whose first processing attempt raises a
non-corruption error and whose second attempt succeeds. -/
def transientAttempts : Nat → Except String Unit :=
  fun k => if k == 0 then .error "disk quota exceeded" else .ok ()

/-- Attempt outcomes of a file that raises the same non-corruption error
on every attempt. -/
def persistentFailAttempts : Nat → Except String Unit :=
  fun _ => .error "disk quota exceeded"

/-- A batch that reaches the upload step and fails there. -/
def uploadFailEnv : BatchEnv :=
  { urlBatch := ["u1"], downloadCode := fun _ => 0,
    fileResults := [.ok ()], mergeOk := true, uploadOk := false }

/-- A batch that succeeds end to end. -/
def successEnv : BatchEnv :=
  { urlBatch := ["u1", "u2"], downloadCode := fun _ => 0,
    fileResults := [.ok (), .ok ()], mergeOk := true, uploadOk := true }

/-! ## Lemmas about the batch planner -/

lemma batchUrlsAux_nil (size fuel : Nat) :
    batchUrlsAux size fuel ([] : List α) = [] := by
  cases fuel <;> rfl

lemma batchUrlsAux_join (size : Nat) (hpos : 1 ≤ size) :
    ∀ (fuel : Nat) (l : List α), l.length ≤ fuel →
      (batchUrlsAux size fuel l).flatten = l := by
  intro fuel
  induction fuel with
  | zero =>
    intro l hl
    have hnil : l = [] := List.eq_nil_of_length_eq_zero (Nat.le_zero.mp hl)
    subst hnil
    rfl
  | succ n ih =>
    intro l hl
    cases l with
    | nil => rfl
    | cons x xs =>
      show (List.take size (x :: xs) ::
        batchUrlsAux size n (List.drop size (x :: xs))).flatten = x :: xs
      rw [List.flatten_cons, ih]
      · exact List.take_append_drop size (x :: xs)
      · rw [List.length_drop]
        have := List.length_cons x xs ▸ hl
        omega

lemma batchUrlsAux_dropLast (size : Nat) :
    ∀ (fuel : Nat) (l : List α),
      ∀ b ∈ (batchUrlsAux size fuel l).dropLast, b.length = size := by
  intro fuel
  induction fuel with
  | zero => intro l b hb; simp [batchUrlsAux] at hb
  | succ n ih =>
    intro l b hb
    cases l with
    | nil => simp [batchUrlsAux_nil] at hb
    | cons x xs =>
      have hb' : b ∈ (List.take size (x :: xs) ::
          batchUrlsAux size n (List.drop size (x :: xs))).dropLast := hb
      cases hrest : batchUrlsAux size n (List.drop size (x :: xs)) with
      | nil => rw [hrest] at hb'; simp at hb'
      | cons r rs =>
        rw [hrest, List.dropLast_cons₂] at hb'
        rcases List.mem_cons.mp hb' with hbt | hbm
        · -- `b` is the head slice; the tail being nonempty forces
          -- `size < (x :: xs).length`, so the slice is full
          have hdrop : List.drop size (x :: xs) ≠ [] := by
            intro hdnil
            rw [hdnil, batchUrlsAux_nil] at hrest
            exact List.cons_ne_nil r rs hrest.symm
          have hlt : size < (x :: xs).length := by
            by_contra hge
            exact hdrop (List.drop_eq_nil_of_le (Nat.le_of_not_lt hge))
          rw [hbt, List.length_take]
          omega
        · exact ih (List.drop size (x :: xs)) b (hrest ▸ hbm)

/-! ### C6 — batch planner: filter then fixed-size consecutive slices -/

set_option maxRecDepth 4000 in
/-- **C6.** The batch planner removes exactly the manifest entries present
in the ledger, preserving manifest order (the pending list is a sublist of
the manifest whose members are exactly the non-completed manifest
entries), and slices the remainder into consecutive batches whose
concatenation is the pending list, every batch except possibly the last
having exactly `batchSize` elements; a 250-URL manifest with an empty
ledger and `batchSize = 100` yields batch sizes 100, 100, 50. -/
theorem C6_batch_planner (manifest completed : List String) (batchSize : Nat)
    (hpos : 1 ≤ batchSize) :
    (filter_pending manifest completed).Sublist manifest ∧
    (∀ u, u ∈ filter_pending manifest completed ↔
      u ∈ manifest ∧ u ∉ completed) ∧
    (plan_batches manifest completed batchSize).flatten =
      filter_pending manifest completed ∧
    (∀ b ∈ (plan_batches manifest completed batchSize).dropLast,
      b.length = batchSize) ∧
    (plan_batches ((List.range 250).map (fun i => "u" ++ toString (i + 1)))
        [] 100).map List.length = [100, 100, 50] := by
  refine ⟨List.filter_sublist manifest, fun u => ?_, ?_, ?_, ?_⟩
  · simp [filter_pending]
  · exact batchUrlsAux_join batchSize hpos _ _ le_rfl
  · exact batchUrlsAux_dropLast batchSize _ _
  · rfl

/-- Witness for C6 at a concrete input: a 3-entry manifest with one
completed URL and batch size 2. -/
theorem C6_batch_planner_witness :
    (1 ≤ 2) ∧
    (plan_batches ["a", "b", "c"] ["b"] 2).flatten =
      filter_pending ["a", "b", "c"] ["b"] :=
  ⟨by decide, (C6_batch_planner ["a", "b", "c"] ["b"] 2 (by decide)).2.2.1⟩

/-! ### C10 — setup manifest build -/

/-- **C10.** The setup step's manifest build writes, for each inclusion
filter in configuration order, every fetched URL containing that filter
as a substring: the output is grouped filter-by-filter, a URL appears
once per matching filter (times its multiplicity in the fetched list),
and the exclusion filters never influence the output. -/
theorem C10_manifest_build (incl : List String)
    (excl excl' : Option (List String)) (urls : List String) :
    build_manifest incl excl urls = build_manifest incl excl' urls ∧
    (∀ f fs, build_manifest (f :: fs) excl urls =
      urls.filter (fun u => strContains u f) ++ build_manifest fs excl urls) ∧
    (∀ u, (build_manifest incl excl urls).count u =
      (incl.countP (fun f => strContains u f)) * urls.count u) := by
  refine ⟨rfl, fun f fs => rfl, fun u => ?_⟩
  induction incl with
  | nil => simp [build_manifest]
  | cons f fs ih =>
    have hcons : build_manifest (f :: fs) excl urls =
        urls.filter (fun u => strContains u f) ++ build_manifest fs excl urls :=
      rfl
    rw [hcons, List.count_append, ih, List.countP_cons]
    by_cases hf : strContains u f
    · rw [List.count_filter (by simpa using hf)]
      simp only [hf, if_true]
      ring
    · have hnotmem : u ∉ urls.filter (fun v => strContains v f) := by
        intro hmem
        exact hf (by simpa using (List.mem_filter.mp hmem).2)
      rw [List.count_eq_zero.mpr hnotmem]
      simp [hf]

/-! ### C5 — ledger load on a missing store -/

/-- **C5 counterexample.** When the ledger store does not exist, `main`'s
ledger load does not return the empty set: the plain `open` raises
`FileNotFoundError`. -/
theorem C5_counterexample :
    load_completed none = Except.error LedgerError.fileNotFound ∧
    ∀ l, load_completed none ≠ Except.ok l := by
  exact ⟨rfl, fun l h => by simp [load_completed] at h⟩

/-- **C5 amended.** Loading the progress ledger fails exactly when the
store does not exist (`FileNotFoundError` from the plain `open`); when
the store exists its lines are read and stripped into the completed set,
with no parse-failure mode. -/
theorem C5_amended_ledger_load :
    ∀ store : Option (List String),
      ((∃ e, load_completed store = Except.error e) ↔ store = none) ∧
      (∀ lines, store = some lines →
        load_completed store = Except.ok (lines.map pyStrip)) := by
  intro store
  cases store with
  | none =>
    exact ⟨⟨fun _ => rfl, fun _ => ⟨.fileNotFound, rfl⟩⟩,
      fun lines h => by cases h⟩
  | some lines =>
    refine ⟨⟨fun ⟨e, he⟩ => by simp [load_completed] at he, fun h => by cases h⟩,
      fun l hl => ?_⟩
    cases hl
    rfl

/-- Witness for C5's amended theorem at a concrete store: an existing
two-line store loads with its lines stripped. -/
theorem C5_amended_ledger_load_witness :
    (some ["u1 ", "u2"] : Option (List String)) = some ["u1 ", "u2"] ∧
    load_completed (some ["u1 ", "u2"]) = Except.ok ["u1", "u2"] :=
  ⟨rfl, by
    have h := (C5_amended_ledger_load (some ["u1 ", "u2"])).2
      ["u1 ", "u2"] rfl
    simpa [pyStrip] using h⟩

/-! ## Lemmas about the batch-loop action traces -/

lemma downloadLoopAux_mem (code : Nat → Nat) :
    ∀ (fuel attempt : Nat) (a : Action),
      a ∈ (downloadLoopAux code attempt fuel).1 →
      (∃ c, a = Action.downloadAttempt c) ∨ ∃ s, a = Action.sleepBackoff s := by
  intro fuel
  induction fuel with
  | zero => intro attempt a ha; simp [downloadLoopAux] at ha
  | succ n ih =>
    intro attempt a ha
    simp only [downloadLoopAux] at ha
    split at ha
    · exact Or.inl ⟨0, by simpa using ha⟩
    · split at ha
      · rcases List.mem_cons.mp ha with h | h
        · exact Or.inl ⟨_, h⟩
        · rcases List.mem_cons.mp h with h' | h'
          · exact Or.inr ⟨_, h'⟩
          · exact ih (attempt + 1) a h'
      · exact Or.inl ⟨_, by simpa using ha⟩

lemma extractionPhase_mem :
    ∀ (rs : List (Except String Unit)) (i : Nat) (a : Action),
      a ∈ (extractionPhase rs i).1 → ∃ j, a = Action.extractFile j := by
  intro rs
  induction rs with
  | nil => intro i a ha; simp [extractionPhase] at ha
  | cons r rt ih =>
    intro i a ha
    cases r with
    | ok u =>
      simp only [extractionPhase] at ha
      rcases List.mem_cons.mp ha with h | h
      · exact ⟨i, h⟩
      · exact ih (i + 1) a h
    | error m => exact ⟨i, by simpa [extractionPhase] using ha⟩

/-! ### C3 — ledgering only after a confirmed upload -/

/-- **C3.** In every batch run, a ledger append occurs only when the
upload succeeded: any `ledgerAppend` in the trace carries exactly the
batch's URLs, implies the upload succeeded and the batch finished without
error, and sits strictly after the upload action in the trace; when the
upload fails, nothing is ledgered. -/
theorem C3_ledger_only_after_upload (env : BatchEnv) :
    (∀ us, Action.ledgerAppend us ∈ (runBatch env).1 →
      us = env.urlBatch ∧ env.uploadOk = true ∧ (runBatch env).2 = none ∧
      ∃ t1 t2, (runBatch env).1 = t1 ++ Action.uploadAttempt :: t2 ∧
        Action.ledgerAppend us ∈ t2 ∧ Action.uploadAttempt ∉ t1) ∧
    (env.uploadOk = false →
      ∀ us, Action.ledgerAppend us ∉ (runBatch env).1) := by
  obtain ⟨urls, code, frs, mok, uok⟩ := env
  rcases hdl : downloadLoopAux code 0 maxDownloadRetries with ⟨dtr, dok⟩
  have hd : ∀ us, Action.ledgerAppend us ∉ dtr := by
    intro us h
    have h' : Action.ledgerAppend us ∈
        (downloadLoopAux code 0 maxDownloadRetries).1 := by
      rw [hdl]; exact h
    rcases downloadLoopAux_mem code maxDownloadRetries 0 _ h' with
      ⟨c, hc⟩ | ⟨s, hs⟩
    · exact Action.noConfusion hc
    · exact Action.noConfusion hs
  have hdu : Action.uploadAttempt ∉ dtr := by
    intro h
    have h' : Action.uploadAttempt ∈
        (downloadLoopAux code 0 maxDownloadRetries).1 := by
      rw [hdl]; exact h
    rcases downloadLoopAux_mem code maxDownloadRetries 0 _ h' with
      ⟨c, hc⟩ | ⟨s, hs⟩
    · exact Action.noConfusion hc
    · exact Action.noConfusion hs
  rcases hex : extractionPhase frs 0 with ⟨etr, eres⟩
  have he : ∀ us, Action.ledgerAppend us ∉ etr := by
    intro us h
    have h' : Action.ledgerAppend us ∈ (extractionPhase frs 0).1 := by
      rw [hex]; exact h
    obtain ⟨j, hj⟩ := extractionPhase_mem frs 0 _ h'
    simp at hj
  have heu : Action.uploadAttempt ∉ etr := by
    intro h
    have h' : Action.uploadAttempt ∈ (extractionPhase frs 0).1 := by
      rw [hex]; exact h
    obtain ⟨j, hj⟩ := extractionPhase_mem frs 0 _ h'
    simp at hj
  simp only [runBatch, hdl, hex]
  cases dok with
  | false =>
    refine ⟨fun us hmem => ?_, fun _ us hmem => ?_⟩ <;>
      simp [hd us] at hmem
  | true =>
    cases eres with
    | some m =>
      refine ⟨fun us hmem => ?_, fun _ us hmem => ?_⟩ <;>
        simp [hd us, he us] at hmem
    | none =>
      cases mok with
      | false =>
        refine ⟨fun us hmem => ?_, fun _ us hmem => ?_⟩ <;>
          simp [hd us, he us] at hmem
      | true =>
        cases uok with
        | false =>
          refine ⟨fun us hmem => ?_, fun _ us hmem => ?_⟩ <;>
            simp [hd us, he us] at hmem
        | true =>
          refine ⟨fun us hmem => ?_, fun hfalse => by cases hfalse⟩
          have hus : us = urls := by
            simp [hd us, he us] at hmem
            exact hmem
          subst hus
          refine ⟨rfl, rfl, rfl,
            [Action.writeTempFile, Action.saveMapping] ++ dtr ++
              [Action.unlinkTemp] ++ etr ++ [Action.mergeAttempt],
            [Action.ledgerAppend us, Action.purgeDownloadedSources,
             Action.purgeParquetFiles, Action.purgeMappingFiles,
             Action.purgeIntermediate], by simp, by simp, ?_⟩
          intro hup
          simp [hdu, heu] at hup

/-- Witness for C3 at concrete batches: on an upload failure nothing is
ledgered, and on a successful batch the upload indeed succeeded. -/
theorem C3_ledger_only_after_upload_witness :
    Action.ledgerAppend ["u1"] ∉ (runBatch uploadFailEnv).1 ∧
    successEnv.uploadOk = true :=
  ⟨(C3_ledger_only_after_upload uploadFailEnv).2 rfl ["u1"],
   ((C3_ledger_only_after_upload successEnv).1 ["u1", "u2"]
     (by decide)).2.1⟩

/-! ### C2 — scratch purge on exit paths -/

/-- **C2 counterexample.** On the upload-failure exit path nothing is
purged: the URL-mapping scratch file is created (`saveMapping`) but no
purge action appears in the trace, because the cleanup block at the end
of the loop body is only reached after a successful upload. -/
theorem C2_counterexample :
    Action.saveMapping ∈ (runBatch uploadFailEnv).1 ∧
    (runBatch uploadFailEnv).2 = some BatchError.uploadFailed ∧
    Action.purgeMappingFiles ∉ (runBatch uploadFailEnv).1 ∧
    Action.purgeDownloadedSources ∉ (runBatch uploadFailEnv).1 ∧
    Action.purgeParquetFiles ∉ (runBatch uploadFailEnv).1 ∧
    Action.purgeIntermediate ∉ (runBatch uploadFailEnv).1 := by
  decide

/-- **C2 amended.** Scratch is purged only on the batch's successful exit
path: the four purge actions appear in the trace exactly when the batch
finished without error; on the download-failure path only the temporary
URL-list file is unlinked. -/
theorem C2_amended_purge_only_on_success (env : BatchEnv) :
    ((Action.purgeDownloadedSources ∈ (runBatch env).1 ∧
      Action.purgeParquetFiles ∈ (runBatch env).1 ∧
      Action.purgeMappingFiles ∈ (runBatch env).1 ∧
      Action.purgeIntermediate ∈ (runBatch env).1) ↔
      (runBatch env).2 = none) ∧
    ((runBatch env).2 = some BatchError.downloadFailed →
      Action.unlinkTemp ∈ (runBatch env).1) := by
  obtain ⟨urls, code, frs, mok, uok⟩ := env
  rcases hdl : downloadLoopAux code 0 maxDownloadRetries with ⟨dtr, dok⟩
  have hnd : ∀ (x : Action), (∀ c, x ≠ Action.downloadAttempt c) →
      (∀ s, x ≠ Action.sleepBackoff s) → x ∉ dtr := by
    intro x h1 h2 hx
    have h' : x ∈ (downloadLoopAux code 0 maxDownloadRetries).1 := by
      rw [hdl]; exact hx
    rcases downloadLoopAux_mem code maxDownloadRetries 0 _ h' with
      ⟨c, hc⟩ | ⟨s, hs⟩
    · exact h1 c hc
    · exact h2 s hs
  rcases hex : extractionPhase frs 0 with ⟨etr, eres⟩
  have hne : ∀ (x : Action), (∀ j, x ≠ Action.extractFile j) → x ∉ etr := by
    intro x h1 hx
    have h' : x ∈ (extractionPhase frs 0).1 := by
      rw [hex]; exact hx
    obtain ⟨j, hj⟩ := extractionPhase_mem frs 0 _ h'
    exact h1 j hj
  have hd1 : Action.purgeDownloadedSources ∉ dtr :=
    hnd _ (fun c hc => Action.noConfusion hc) (fun s hs => Action.noConfusion hs)
  have he1 : Action.purgeDownloadedSources ∉ etr :=
    hne _ (fun j hj => Action.noConfusion hj)
  simp only [runBatch, hdl, hex]
  cases dok with
  | false =>
    refine ⟨⟨fun h => ?_, fun h => by simp at h⟩, fun _ => by simp⟩
    have h1 := h.1
    simp [hd1] at h1
  | true =>
    cases eres with
    | some m =>
      refine ⟨⟨fun h => ?_, fun h => by simp at h⟩, fun h => by simp at h⟩
      have h1 := h.1
      simp [hd1, he1] at h1
    | none =>
      cases mok with
      | false =>
        refine ⟨⟨fun h => ?_, fun h => by simp at h⟩, fun h => by simp at h⟩
        have h1 := h.1
        simp [hd1, he1] at h1
      | true =>
        cases uok with
        | false =>
          refine ⟨⟨fun h => ?_, fun h => by simp at h⟩,
            fun h => by simp at h⟩
          have h1 := h.1
          simp [hd1, he1] at h1
        | true =>
          exact ⟨⟨fun _ => rfl,
            fun _ => ⟨by simp, by simp, by simp, by simp⟩⟩,
            fun h => by simp at h⟩

/-- Witness for C2's amended theorem: on a successful batch all four
purge actions are present. -/
theorem C2_amended_purge_witness :
    (runBatch successEnv).2 = none ∧
    Action.purgeMappingFiles ∈ (runBatch successEnv).1 :=
  ⟨by decide,
    ((C2_amended_purge_only_on_success successEnv).1.mpr (by decide)).2.2.1⟩
/-! ### C1 — corruption-retry exhaustion -/

/-- **C1 counterexample.** A file failing with a corruption-classified
error on the initial attempt and both retries does *not* have its rows
silently dropped: `process_url_file_with_retry` re-raises the final
error, the worker pool propagates it, and the batch aborts before the
merge/upload/ledger steps — nothing is published. -/
theorem C1_counterexample :
    corruptRetryResult.result =
      Except.error "parse error: unexpected character" ∧
    is_corruption_error "parse error: unexpected character" = true ∧
    (runBatch corruptBatchEnv).2 ≠ none ∧
    Action.uploadAttempt ∉ (runBatch corruptBatchEnv).1 ∧
    ∀ us, Action.ledgerAppend us ∉ (runBatch corruptBatchEnv).1 := by
  refine ⟨rfl, by decide, by decide, by decide, ?_⟩
  intro us h
  have htr : (runBatch corruptBatchEnv).1 =
      [Action.writeTempFile, Action.saveMapping, Action.downloadAttempt 0,
       Action.unlinkTemp, Action.extractFile 0] := by decide
  rw [htr] at h
  simp at h

/-- **C1 amended.** For a file whose extraction fails with a
corruption-classified error on the initial attempt and on both bounded
retries, the retry loop performs all three processing attempts and two
re-downloads, then logs and re-raises the final error; the batch
therefore aborts with an extraction failure and nothing is uploaded or
ledgered. -/
theorem C1_amended_corruption_exhaustion
    (a : Nat → Except String Unit) (rd : Nat → Bool)
    (m0 m1 m2 : String) (env : BatchEnv)
    (h0 : a 0 = .error m0) (h1 : a 1 = .error m1) (h2 : a 2 = .error m2)
    (hc0 : is_corruption_error m0 = true)
    (hc1 : is_corruption_error m1 = true)
    (_hc2 : is_corruption_error m2 = true)
    (hdl : env.downloadCode 0 = 0)
    (hfr : env.fileResults =
      [(process_url_file_with_retry a true rd).result]) :
    (process_url_file_with_retry a true rd).result = Except.error m2 ∧
    (process_url_file_with_retry a true rd).processCalls = 3 ∧
    (process_url_file_with_retry a true rd).redownloads = 2 ∧
    (runBatch env).2 = some (BatchError.extractionFailed m2) ∧
    Action.uploadAttempt ∉ (runBatch env).1 ∧
    ∀ us, Action.ledgerAppend us ∉ (runBatch env).1 := by
  have hr : process_url_file_with_retry a true rd =
      ⟨Except.error m2, 3, 2⟩ := by
    simp [process_url_file_with_retry, retryLoopAux, h0, h1, h2,
      hc0, hc1, maxRetries]
  obtain ⟨urls, code, frs, mok, uok⟩ := env
  simp only at hdl hfr
  subst hfr
  have hdlt : downloadLoopAux code 0 maxDownloadRetries =
      ([Action.downloadAttempt 0], true) := by
    simp [downloadLoopAux, maxDownloadRetries, hdl]
  have hext : extractionPhase
      [(process_url_file_with_retry a true rd).result] 0 =
      ([Action.extractFile 0], some m2) := by
    rw [hr]
    rfl
  refine ⟨by rw [hr], by rw [hr], by rw [hr], ?_, ?_, ?_⟩
  · simp [runBatch, hdlt, hext]
  · simp [runBatch, hdlt, hext]
  · intro us
    simp [runBatch, hdlt, hext]

/-- Witness for C1's amended theorem at the concrete persistently corrupt
file and batch. -/
theorem C1_amended_corruption_exhaustion_witness :
    corruptRetryResult.result =
      Except.error "parse error: unexpected character" ∧
    (runBatch corruptBatchEnv).2 =
      some (BatchError.extractionFailed "parse error: unexpected character") :=
  ⟨(C1_amended_corruption_exhaustion corruptAttempts (fun _ => true)
      "parse error: unexpected character" "parse error: unexpected character"
      "parse error: unexpected character" corruptBatchEnv rfl rfl rfl
      (by decide) (by decide) (by decide) rfl rfl).1,
   (C1_amended_corruption_exhaustion corruptAttempts (fun _ => true)
      "parse error: unexpected character" "parse error: unexpected character"
      "parse error: unexpected character" corruptBatchEnv rfl rfl rfl
      (by decide) (by decide) (by decide) rfl rfl).2.2.2.1⟩

/-! ### C4 — non-corruption errors are (wrongly) retried -/

/-- **C4.** Contrary to the claim (and to the loop's own inline comment,
"If it's the last attempt or not a corruption error, re-raise"), an
extraction failure whose message does not match the corruption
vocabulary does *not* propagate immediately: the `raise` is guarded by
`attempt == max_retries` only, so the file is retried.  With a transient
non-corruption error the loop even returns success after 2 processing
calls; with a persistent one it performs all 3 calls (and 0 re-downloads)
before finally re-raising. -/
theorem C4_non_corruption_error_is_retried :
    is_corruption_error "disk quota exceeded" = false ∧
    (process_url_file_with_retry transientAttempts true
      (fun _ => true)).result = Except.ok () ∧
    (process_url_file_with_retry transientAttempts true
      (fun _ => true)).processCalls = 2 ∧
    (process_url_file_with_retry persistentFailAttempts true
      (fun _ => true)).result = Except.error "disk quota exceeded" ∧
    (process_url_file_with_retry persistentFailAttempts true
      (fun _ => true)).processCalls = 3 ∧
    (process_url_file_with_retry persistentFailAttempts true
      (fun _ => true)).redownloads = 0 :=
  ⟨by decide, rfl, rfl, rfl, rfl, rfl⟩

/-! ### C7 — batch artifact identifier: lemmas and theorem -/

lemma bytesLE_length : ∀ (k n : Nat), (bytesLE k n).length = k := by
  intro k
  induction k with
  | zero => intro n; rfl
  | succ j ih => intro n; simp [bytesLE, ih]

lemma md5Bytes_length (msg : List Nat) : (md5Bytes msg).length = 16 := by
  simp [md5Bytes, bytesLE_length]

lemma hexOfBytes_length : ∀ bs : List Nat,
    (hexOfBytes bs).length = 2 * bs.length := by
  intro bs
  induction bs with
  | nil => rfl
  | cons b bt ih =>
    simp only [hexOfBytes, List.flatMap_cons, List.length_append,
      List.length_cons] at *
    simp [byteToHex] at *
    omega

lemma toHexDigit_mem (n : Nat) : toHexDigit n ∈ hexDigits := by
  unfold toHexDigit
  rw [List.getD_eq_getElem?_getD]
  cases h : hexDigits[n]? with
  | none => simp; decide
  | some c =>
    simp only [h, Option.getD_some]
    exact List.getElem?_mem h

lemma hexOfBytes_mem : ∀ (bs : List Nat) (c : Char),
    c ∈ hexOfBytes bs → c ∈ hexDigits := by
  intro bs
  induction bs with
  | nil => intro c hc; simp [hexOfBytes] at hc
  | cons b bt ih =>
    intro c hc
    simp only [hexOfBytes, List.flatMap_cons, List.mem_append] at hc
    rcases hc with hc | hc
    · simp only [byteToHex, List.mem_cons, List.not_mem_nil, or_false] at hc
      rcases hc with rfl | rfl <;> exact toHexDigit_mem _
    · exact ih c hc

/-- **C7.** The batch artifact identifier is a deterministic function of
the batch's ordered URL list, and is always exactly 8 lowercase
hexadecimal characters (the first 8 characters of the 32-character MD5
hexdigest of the `"_"`-joined URLs). -/
theorem C7_batch_identifier :
    (∀ u v : List String, u = v → batch_hash u = batch_hash v) ∧
    (∀ u : List String, (batch_hash u).length = 8 ∧
      ∀ c ∈ (batch_hash u).data, c ∈ hexDigits) := by
  refine ⟨fun u v h => by rw [h], fun u => ⟨?_, ?_⟩⟩
  · show (batch_hash_chars u).length = 8
    rw [batch_hash_chars, List.length_take, hexOfBytes_length,
      md5Bytes_length]
    decide
  · intro c hc
    have hc' : c ∈ hexOfBytes (md5Bytes
        (strBytes (String.intercalate "_" u))) :=
      List.take_subset 8 _ hc
    exact hexOfBytes_mem _ c hc'

set_option maxRecDepth 40000 in
/-- Witness for C7 at a concrete two-URL batch; the identifier also
matches the value `hashlib.md5` computes for this batch. -/
theorem C7_batch_identifier_witness :
    batch_hash ["http://a.example/x", "http://b.example/y"] =
      batch_hash ["http://a.example/x", "http://b.example/y"] ∧
    (batch_hash ["http://a.example/x", "http://b.example/y"]).length = 8 ∧
    batch_hash ["http://a.example/x", "http://b.example/y"] = "a9c3e565" :=
  ⟨C7_batch_identifier.1 _ _ rfl,
   (C7_batch_identifier.2 ["http://a.example/x", "http://b.example/y"]).1,
   by rfl⟩

/-! ### C8 — rows persisted by the record extractor -/

/-- **C8 counterexample.** `process_url_file` does not filter null/empty
urls: it pairs each extracted line with its domain and drops only rows
whose *domain* is null (`df.dropna()`).  An empty url line whose domain
extraction yields a non-null value is persisted.  (On the empty string,
`tldextract.extract` returns empty domain and suffix without raising, so
`extract_domain("")` is `"."`, which is not null — modelled here by the
library outcome `some ("", "")`.) -/
theorem C8_counterexample :
    ∃ r ∈ process_url_file_rows (fun _ => some ("", "")) [""], r.1 = "" :=
  ⟨("", "."), by decide, rfl⟩

/-- **C8 amended.** Every row persisted by `process_url_file` has a
non-null url drawn from the extracted lines and a non-null domain equal
to `extract_domain` of that url (rows with a null domain are dropped);
the null/empty-url filter exists only in the DuckDB batch variant, whose
rows always have a non-null, non-empty url. -/
theorem C8_amended_rows :
    (∀ (tld : String → Option (String × String)) (urls : List String)
        (r : String × String), r ∈ process_url_file_rows tld urls →
        r.1 ∈ urls ∧ extract_domain tld (some r.1) = some r.2) ∧
    (∀ (domainOf : String → Option String)
        (extractedUrls : List (Option String)) (row : String × Option String),
        row ∈ duckdb_batch_rows domainOf extractedUrls →
        row.1 ≠ "" ∧ some row.1 ∈ extractedUrls ∧ row.2 = domainOf row.1) := by
  constructor
  · intro tld urls r hr
    simp only [process_url_file_rows, List.mem_filterMap, List.mem_map]
      at hr
    obtain ⟨p, ⟨u, hu, hpu⟩, hp⟩ := hr
    subst hpu
    cases hd : extract_domain tld (some u) with
    | none => rw [hd] at hp; cases hp
    | some d =>
      rw [hd] at hp
      obtain rfl : (u, d) = r := Option.some.inj hp
      exact ⟨hu, hd⟩
  · intro dOf eus row hrow
    simp only [duckdb_batch_rows, List.mem_filterMap] at hrow
    obtain ⟨u?, hu, hf⟩ := hrow
    rcases u? with _ | u
    · exact Option.noConfusion hf
    · have hf' : (if u = "" then none else some (u, dOf u)) = some row := hf
      by_cases h0 : u = ""
      · rw [if_pos h0] at hf'
        exact Option.noConfusion hf'
      · rw [if_neg h0] at hf'
        obtain rfl : (u, dOf u) = row := Option.some.inj hf'
        exact ⟨h0, hu, rfl⟩

/-- Witness for C8's amended theorem at concrete inputs for both the
per-file extractor and the DuckDB variant. -/
theorem C8_amended_rows_witness :
    ("http://x", "a.com") ∈
      process_url_file_rows (fun _ => some ("a", "com")) ["http://x"] ∧
    "http://x" ∈ ["http://x"] ∧
    extract_domain (fun _ => some ("a", "com")) (some "http://x") =
      some "a.com" ∧
    ("u", some "d.com").1 ≠ "" := by
  refine ⟨by decide, ?_, ?_, ?_⟩
  · exact (C8_amended_rows.1 (fun _ => some ("a", "com")) ["http://x"]
      ("http://x", "a.com") (by decide)).1
  · exact (C8_amended_rows.1 (fun _ => some ("a", "com")) ["http://x"]
      ("http://x", "a.com") (by decide)).2
  · exact (C8_amended_rows.2 (fun _ => some "d.com") [some "u"]
      ("u", some "d.com") (by decide)).1

/-! ### C9 — corruption classifier -/

/-- **C9 counterexample.** The classifier strips whitespace before its
marker tests (`content = result.stdout.strip()`): on a bounded prefix
beginning with a space before `<?xml`, the code classifies the file as
XML although the raw prefix neither starts with `<?xml` nor contains the
`SelectObjectContentRequest` marker, so the claim's "exactly when"
characterization fails. -/
theorem C9_counterexample :
    is_xml_file (InspectOutcome.ran 0 " <?xml version=") = true ∧
    specXmlPredicate " <?xml version=" = false := by
  decide

/-- **C9 amended.** The classifier is total and fail-open — an inspection
exception or a nonzero inspection exit status yields `false` — and
returns `true` exactly when inspection ran with exit status 0 and the
*whitespace-stripped* bounded prefix starts with `<?xml` or contains
`<SelectObjectContentRequest`; files classified `true` go to `xml_files`
and are excluded from the extraction worker pool (which receives exactly
the files classified `false`), so they never enter the corruption-retry
loop. -/
theorem C9_amended_classifier :
    (∀ r : InspectOutcome, is_xml_file r = true ↔
      ∃ out, r = InspectOutcome.ran 0 out ∧
        specXmlPredicate (pyStrip out) = true) ∧
    (∀ (α : Type) (inspect : α → InspectOutcome) (files : List α),
      (classify_files inspect files).1 =
        files.filter (fun f => !(is_xml_file (inspect f))) ∧
      ∀ f ∈ files, is_xml_file (inspect f) = true →
        f ∉ (classify_files inspect files).1) := by
  constructor
  · intro r
    constructor
    · intro h
      cases r with
      | raised => cases h
      | ran rc out =>
        by_cases hrc : rc = 0
        · subst hrc
          refine ⟨out, rfl, ?_⟩
          simpa [is_xml_file, specXmlPredicate] using h
        · exfalso
          have hb : (rc == 0) = false := by simpa using hrc
          simp [is_xml_file, hb] at h
    · rintro ⟨out, rfl, hout⟩
      simpa [is_xml_file, specXmlPredicate] using hout
  · intro α inspect files
    have hfil : (classify_files inspect files).1 =
        files.filter (fun f => !(is_xml_file (inspect f))) := by
      induction files with
      | nil => rfl
      | cons f fs ih =>
        cases h : is_xml_file (inspect f) <;>
          simp [classify_files, h, ih, List.filter_cons]
    refine ⟨hfil, fun f hf hxml hmem => ?_⟩
    rw [hfil] at hmem
    have := (List.mem_filter.mp hmem).2
    rw [hxml] at this
    cases this

/-- Witness for C9's amended theorem: a file whose stripped prefix starts
with `<?xml` is classified corrupt and excluded from the worker pool. -/
theorem C9_amended_classifier_witness :
    is_xml_file (InspectOutcome.ran 0 "<?xml vers") = true ∧
    "f1" ∉ (classify_files
      (fun _ : String => InspectOutcome.ran 0 "<?xml vers") ["f1"]).1 :=
  ⟨by decide,
    (C9_amended_classifier.2 String
      (fun _ => InspectOutcome.ran 0 "<?xml vers") ["f1"]).2 "f1"
      (by decide) (by decide)⟩

end DolmaPipeline
